import Mathlib

/-!
# Verification of the resource-pooler library

Shallow embedding of the `resource-pooler` repository (files
`src/AsyncQueue.ts` and `src/index.ts`, current revision: the one with the
`peek`-based lazy growth in `use`, the `try`/`finally` return path, and the
`resize` that throws on a conflicting resize; that revision is the one the
repository's test suite `index.test.ts` exercises).

Modelling decisions:

* JavaScript is single-threaded with cooperative async scheduling.  All the
  claims below concern sequential executions (each awaited operation runs to
  completion before the next statement), so `async` methods are embedded as
  pure state-transforming functions.  A `dequeue` on an empty queue with no
  producer would suspend forever; such an execution is represented by
  `Option.none`.
* Thrown errors / rejected promises are both represented by `Except.error`.
  A factory operation that "may suspend" returns a `PromiseLike`; a failure
  of `dispose` is therefore observed by the pool only where the code awaits
  it (`waitForResize`), matching §7 of the code's documentation.
* Resources are represented by `Nat` identifiers: the k-th `create` call
  (counting from 0) produces resource `k`.  Resources are assumed truthy in
  the JavaScript sense, so `!this.resourceQueue.peek()` is emptiness of the
  buffer.
* The pool state carries ghost counters (`createCount`, `disposeCount`,
  `accessCount`, `lentOut`) that record how often the factory operations
  were invoked and how many resources are currently lent out.  They have no
  influence on control flow; they only let theorems speak about "number of
  `dispose` calls" etc.  Similarly `AsyncQueue` carries a ghost `fulfilled`
  log pairing each waiter with the item handed to it.
-/

/-! ## The Handoff Queue (`src/AsyncQueue.ts`)

```ts
export default class AsyncQueue<T> {
  #elements: { element: T }[] = [];
  #waiting: ((el: T) => void)[] = [];
  get size() { return this.#elements.length; }
  peek(): T { return this.#elements[0]?.element; }
  enqueue(element: T) {
    const next = this.#waiting.shift();
    if (next) { next(element); } else { this.#elements.push({ element }); }
  }
  async dequeue() {
    const next = this.#elements.shift();
    if (next) { return next.element; }
    const defer = new Promise<T>((res) => this.#waiting.push(res));
    return defer;
  }
}
```

A pending waiter (a promise resolver) is represented by a `Nat` identifier,
assigned in `dequeue`-call order from `nextWaiterId`; fulfilling a waiter
appends the pair `(waiter, item)` to the ghost `fulfilled` log. -/

structure AsyncQueue (T : Type) where
  elements : List T
  waiting : List Nat
  fulfilled : List (Nat × T)
  nextWaiterId : Nat
deriving Repr

def AsyncQueue.empty (T : Type) : AsyncQueue T :=
  { elements := [], waiting := [], fulfilled := [], nextWaiterId := 0 }

def AsyncQueue.size {T : Type} (q : AsyncQueue T) : Nat :=
  q.elements.length

def AsyncQueue.peek {T : Type} (q : AsyncQueue T) : Option T :=
  q.elements.head?

def AsyncQueue.enqueue {T : Type} (q : AsyncQueue T) (el : T) : AsyncQueue T :=
  match q.waiting with
  | w :: rest => { q with waiting := rest, fulfilled := q.fulfilled ++ [(w, el)] }
  | [] => { q with elements := q.elements ++ [el] }

/-- `dequeue` returns `some item` when an item was buffered, `none` when the
caller was registered as a new waiter (and would suspend). -/
def AsyncQueue.dequeue {T : Type} (q : AsyncQueue T) : Option T × AsyncQueue T :=
  match q.elements with
  | e :: rest => (some e, { q with elements := rest })
  | [] => (none, { q with waiting := q.waiting ++ [q.nextWaiterId],
                          nextWaiterId := q.nextWaiterId + 1 })

/-- A queue operation issued by a client. -/
inductive QOp (T : Type) where
  | enqueue (x : T) : QOp T
  | dequeue : QOp T

def AsyncQueue.applyOp {T : Type} (q : AsyncQueue T) : QOp T → AsyncQueue T
  | QOp.enqueue x => q.enqueue x
  | QOp.dequeue => (q.dequeue).2

def AsyncQueue.runOps {T : Type} (q : AsyncQueue T) : List (QOp T) → AsyncQueue T
  | [] => q
  | op :: rest => AsyncQueue.runOps (q.applyOp op) rest

/-- Like `runOps` but also collects the immediate result of every `dequeue`
call, in call order. -/
def AsyncQueue.runOpsLog {T : Type} (q : AsyncQueue T) :
    List (QOp T) → AsyncQueue T × List (Option T)
  | [] => (q, [])
  | QOp.enqueue x :: rest => AsyncQueue.runOpsLog (q.enqueue x) rest
  | QOp.dequeue :: rest =>
    match q.dequeue with
    | (res, q1) =>
      match AsyncQueue.runOpsLog q1 rest with
      | (qf, log) => (qf, res :: log)

/-! ### Queue lemmas -/

theorem AsyncQueue.runOps_append {T : Type} (a b : List (QOp T)) :
    ∀ q : AsyncQueue T, AsyncQueue.runOps q (a ++ b) =
      AsyncQueue.runOps (AsyncQueue.runOps q a) b := by
  induction a with
  | nil => intro q; rfl
  | cons op rest ih => intro q; simp only [List.cons_append, AsyncQueue.runOps]; exact ih _

/-- The mutual-exclusivity invariant is preserved by every single operation. -/
theorem AsyncQueue.applyOp_inv {T : Type} (q : AsyncQueue T) (op : QOp T)
    (h : q.elements = [] ∨ q.waiting = []) :
    (q.applyOp op).elements = [] ∨ (q.applyOp op).waiting = [] := by
  cases op with
  | enqueue x =>
    cases hw : q.waiting with
    | nil => simp [AsyncQueue.applyOp, AsyncQueue.enqueue, hw]
    | cons w rest =>
      rcases h with h | h
      · simp [AsyncQueue.applyOp, AsyncQueue.enqueue, hw, h]
      · rw [hw] at h; cases h
  | dequeue =>
    cases he : q.elements with
    | nil => simp [AsyncQueue.applyOp, AsyncQueue.dequeue, he]
    | cons e rest =>
      rcases h with h | h
      · rw [he] at h; cases h
      · simp [AsyncQueue.applyOp, AsyncQueue.dequeue, he, h]

theorem AsyncQueue.runOps_inv {T : Type} (ops : List (QOp T)) :
    ∀ q : AsyncQueue T, (q.elements = [] ∨ q.waiting = []) →
      ((AsyncQueue.runOps q ops).elements = [] ∨ (AsyncQueue.runOps q ops).waiting = []) := by
  induction ops with
  | nil => intro q h; exact h
  | cons op rest ih =>
    intro q h
    exact ih _ (AsyncQueue.applyOp_inv q op h)

/-- Effect of a block of `enqueue`s: the oldest waiters are fulfilled in
order, one per item; leftover items are buffered, leftover waiters stay. -/
theorem AsyncQueue.runOps_enqueues {T : Type} (xs : List T) :
    ∀ q : AsyncQueue T,
      AsyncQueue.runOps q (xs.map QOp.enqueue) =
        { elements := q.elements ++ xs.drop q.waiting.length,
          waiting := q.waiting.drop xs.length,
          fulfilled := q.fulfilled ++ q.waiting.zip xs,
          nextWaiterId := q.nextWaiterId } := by
  induction xs with
  | nil =>
    intro q
    simp [AsyncQueue.runOps]
  | cons x xt ih =>
    intro q
    cases hw : q.waiting with
    | nil =>
      simp only [List.map_cons, AsyncQueue.runOps, AsyncQueue.applyOp, AsyncQueue.enqueue, hw]
      rw [ih]
      simp [hw]
    | cons w ws =>
      simp only [List.map_cons, AsyncQueue.runOps, AsyncQueue.applyOp, AsyncQueue.enqueue, hw]
      rw [ih]
      simp [hw, List.zip_cons_cons, List.append_assoc]

/-- Effect of a block of `dequeue`s from a queue with no pending waiters with
buffered elements `es`: the first `min N es.length` calls return the buffered
items in order, the rest register as waiters and return nothing. -/
theorem AsyncQueue.runOpsLog_dequeues {T : Type} (N : Nat) :
    ∀ q : AsyncQueue T,
      (AsyncQueue.runOpsLog q (List.replicate N QOp.dequeue)).2 =
        (q.elements.take N).map some ++ List.replicate (N - q.elements.length) none := by
  induction N with
  | zero => intro q; simp [AsyncQueue.runOpsLog]
  | succ n ih =>
    intro q
    cases he : q.elements with
    | nil =>
      simp only [List.replicate_succ, AsyncQueue.runOpsLog, AsyncQueue.dequeue, he]
      rw [ih]
      simp [he, List.replicate_succ]
    | cons e rest =>
      simp only [List.replicate_succ, AsyncQueue.runOpsLog, AsyncQueue.dequeue, he]
      rw [ih]
      simp [he, List.take_succ_cons, Nat.succ_sub_succ]

/-- Running `N` dequeues from the empty queue registers waiters `0, …, N-1`
in that order. -/
theorem AsyncQueue.runOps_dequeues_empty {T : Type} (N : Nat) :
    AsyncQueue.runOps (AsyncQueue.empty T) (List.replicate N QOp.dequeue) =
      { elements := [], waiting := List.range N, fulfilled := [], nextWaiterId := N } := by
  induction N with
  | zero => simp [AsyncQueue.runOps, AsyncQueue.empty]
  | succ n ih =>
    rw [List.replicate_succ', AsyncQueue.runOps_append, ih]
    simp [AsyncQueue.runOps, AsyncQueue.applyOp, AsyncQueue.dequeue, List.range_succ]

/-- C3.  Starting from the empty queue, after any sequence of `enqueue` and
`dequeue` operations at most one of the buffered-elements list and the
pending-waiters list is non-empty.  Moreover `enqueue` hands the item
directly to the oldest waiter when one exists and buffers it otherwise, and
`dequeue` takes the oldest buffered item when one exists and otherwise
registers a new waiter. -/
theorem AsyncQueue.handoff_invariant {T : Type} (ops : List (QOp T)) :
    ((AsyncQueue.runOps (AsyncQueue.empty T) ops).elements = [] ∨
      (AsyncQueue.runOps (AsyncQueue.empty T) ops).waiting = []) ∧
    (∀ (q : AsyncQueue T) (x : T) (w : Nat) (ws : List Nat), q.waiting = w :: ws →
      (q.enqueue x).waiting = ws ∧
      (q.enqueue x).fulfilled = q.fulfilled ++ [(w, x)] ∧
      (q.enqueue x).elements = q.elements) ∧
    (∀ (q : AsyncQueue T) (x : T), q.waiting = [] →
      (q.enqueue x).elements = q.elements ++ [x] ∧
      (q.enqueue x).fulfilled = q.fulfilled) ∧
    (∀ (q : AsyncQueue T) (e : T) (es : List T), q.elements = e :: es →
      q.dequeue = (some e, { q with elements := es })) ∧
    (∀ q : AsyncQueue T, q.elements = [] →
      (q.dequeue).1 = none ∧
      (q.dequeue).2.waiting = q.waiting ++ [q.nextWaiterId]) := by
  refine ⟨AsyncQueue.runOps_inv ops _ (Or.inl rfl), ?_, ?_, ?_, ?_⟩
  · intro q x w ws hw
    simp [AsyncQueue.enqueue, hw]
  · intro q x hw
    simp [AsyncQueue.enqueue, hw]
  · intro q e es he
    simp [AsyncQueue.dequeue, he]
  · intro q he
    simp [AsyncQueue.dequeue, he]

/-- Closed instance of `AsyncQueue.handoff_invariant`: the invariant holds for
a concrete operation sequence and the conditional behaviours hold at concrete
queues. -/
theorem AsyncQueue.handoff_invariant_witness :
    ((AsyncQueue.runOps (AsyncQueue.empty Nat)
        [QOp.dequeue, QOp.enqueue 5, QOp.enqueue 6, QOp.dequeue]).elements = [] ∨
      (AsyncQueue.runOps (AsyncQueue.empty Nat)
        [QOp.dequeue, QOp.enqueue 5, QOp.enqueue 6, QOp.dequeue]).waiting = []) ∧
    ((AsyncQueue.mk ([] : List Nat) [7] [] 8).enqueue 42).fulfilled = [(7, 42)] := by
  constructor
  · exact (AsyncQueue.handoff_invariant _).1
  · exact ((AsyncQueue.handoff_invariant ([] : List (QOp Nat))).2.1
      (AsyncQueue.mk ([] : List Nat) [7] [] 8) 42 7 [] rfl).2.1

/-- C4.  Strict FIFO distribution.  First conjunct: if `N` dequeue callers
register as waiters (from the empty queue) and items `xs` are then enqueued,
the ghost fulfilment log pairs waiter `i` with the `i`-th enqueued item, in
fulfilment order.  Second conjunct: if items `xs` are enqueued first (from
the empty queue) and `N` dequeues follow, the dequeues return the buffered
items in exactly enqueue order. -/
theorem AsyncQueue.fifo_order {T : Type} (N : Nat) (xs : List T) :
    (AsyncQueue.runOps (AsyncQueue.empty T)
        (List.replicate N QOp.dequeue ++ xs.map QOp.enqueue)).fulfilled =
      (List.range N).zip xs ∧
    (AsyncQueue.runOpsLog (AsyncQueue.runOps (AsyncQueue.empty T) (xs.map QOp.enqueue))
        (List.replicate N QOp.dequeue)).2 =
      (xs.take N).map some ++ List.replicate (N - xs.length) none := by
  constructor
  · rw [AsyncQueue.runOps_append, AsyncQueue.runOps_dequeues_empty,
      AsyncQueue.runOps_enqueues]
    simp
  · rw [AsyncQueue.runOps_enqueues]
    rw [AsyncQueue.runOpsLog_dequeues]
    simp [AsyncQueue.empty]

/-! ## The Pool Controller (`src/index.ts`)

```ts
class ResourcePooler<T, U> {
  factory: ResourceFactory<T, U>;
  stubFn: (resource: U) => void = () => {};
  targetSize: number = 0;
  currentSize: number = 0;
  resourceQueue: AsyncQueue<T> = new AsyncQueue();

  async use<O>(task, waitForResize = false): Promise<O> {
    if (this.currentSize < this.targetSize && (!this.resourceQueue.peek() || waitForResize)) {
      this.currentSize++;
      const resource = await this.factory.create();
      this.resourceQueue.enqueue(resource);
    }
    const resource = await this.resourceQueue.dequeue();
    const accessor = this.factory.access ?? ((r) => r);
    try {
      if (task !== this.stubFn) {
        const accessed = (await accessor(resource)) as U;
        const result = await task(accessed);
        return result;
      }
      return task();
    } finally {
      if (this.currentSize > this.targetSize) {
        this.currentSize--;
        const diposing = this.factory.dispose?.(resource);
        if (waitForResize) await diposing;
      } else {
        this.resourceQueue.enqueue(resource);
      }
    }
  }

  #resizing = false;

  async resize(newSize: number) {
    if (this.#resizing) throw new Error('Cannot resize while already resizing');
    this.#resizing = true;
    this.targetSize = newSize;
    while (newSize !== this.currentSize) {
      await this.use(this.stubFn, true);
    }
    this.#resizing = false;
  }
}

async function createPool<T, U = T>(factory, size: number = 8) {
  const pooler = new ResourcePooler<T, U>({ factory });
  await pooler.resize(size);
  return pooler;
}
```
-/

/-- Errors: the distinguishable `resize`-conflict error
(`new Error('Cannot resize while already resizing')`) versus any error thrown
by a caller-supplied operation. -/
inductive Err where
  | resizeConflict : Err
  | userError (code : Nat) : Err
deriving DecidableEq, Repr

deriving instance DecidableEq for Except

/-- Result of an awaited caller-supplied operation: a value, or a
throw/rejection. -/
abbrev Outcome (α : Type) := Except Err α

/-- The caller-supplied `ResourceFactory<T, U>`, with resources and views
represented by `Nat`.  `createResult k` is the outcome of the k-th `create`
call (which, on success, materializes resource `k`); `dispose?`/`access?`
are the optional `dispose`/`access` operations, as outcome functions of the
resource. -/
structure ResourceFactory where
  createResult : Nat → Outcome Unit
  dispose? : Option (Nat → Outcome Unit)
  access? : Option (Nat → Outcome Nat)

/-- `ResourcePooler` state.  `queue` is the idle `resourceQueue`'s buffer
(in a sequential execution no waiter is pending when `use`/`resize` is
entered, so the buffer list suffices).  `lentOut`, `createCount`,
`disposeCount` and `accessCount` are ghost counters. -/
structure PoolState where
  targetSize : Nat
  currentSize : Nat
  queue : List Nat
  resizing : Bool
  lentOut : Nat
  createCount : Nat
  disposeCount : Nat
  accessCount : Nat
deriving DecidableEq, Repr

/-- The `task` argument of `use`: either the internal sentinel `stubFn`
(compared by identity in `task !== this.stubFn`) or a real caller task,
given as the outcome it produces from the accessed view. -/
inductive UseTask where
  | stubFn : UseTask
  | real (tk : Nat → Outcome Nat) : UseTask

/-- `this.factory.access ?? ((r) => r)`. -/
def accessorOf (fac : ResourceFactory) : Nat → Outcome Nat :=
  fac.access?.getD (fun r => Except.ok r)

/-- The lazy-growth prologue of `use`:
`if (currentSize < targetSize && (!queue.peek() || waitForResize)) {
currentSize++; const resource = await factory.create(); queue.enqueue(resource); }`.
Note the increment happens before the awaited `create`, so a failing
`create` leaves `currentSize` incremented. -/
def growIfNeeded (fac : ResourceFactory) (waitForResize : Bool) (st : PoolState) :
    Outcome Unit × PoolState :=
  if st.currentSize < st.targetSize ∧ (st.queue.isEmpty ∨ waitForResize) then
    let rid := st.createCount
    let st1 : PoolState := { st with currentSize := st.currentSize + 1,
                                     createCount := st.createCount + 1 }
    match fac.createResult rid with
    | Except.error e => (Except.error e, st1)
    | Except.ok _ => (Except.ok (), { st1 with queue := st1.queue ++ [rid] })
  else (Except.ok (), st)

/-- Outcome of the `try` body for a real task: accessor applied to the
resource, then the task applied to the accessor's result; the first failure
short-circuits. -/
def bodyOutcome (fac : ResourceFactory) (tk : Nat → Outcome Nat) (r : Nat) : Outcome Nat :=
  match accessorOf fac r with
  | Except.error e => Except.error e
  | Except.ok v => tk v

/-- The `finally` block of `use`, applied to the borrowed resource `r` and
the `try` body's outcome: retire the resource (decrement, optional `dispose`,
awaited only under `waitForResize`) when `currentSize > targetSize`,
otherwise enqueue it back.  A failure of an awaited `dispose` replaces the
body's outcome (JavaScript `finally` semantics). -/
def finallyStep (fac : ResourceFactory) (waitForResize : Bool) (r : Nat)
    (bodyResult : Outcome Nat) (st : PoolState) : Outcome Nat × PoolState :=
  if st.targetSize < st.currentSize then
    let st4 : PoolState := { st with currentSize := st.currentSize - 1,
                                     lentOut := st.lentOut - 1 }
    match fac.dispose? with
    | none => (bodyResult, st4)
    | some d =>
      let st5 : PoolState := { st4 with disposeCount := st4.disposeCount + 1 }
      match d r with
      | Except.error e => (if waitForResize then Except.error e else bodyResult, st5)
      | Except.ok _ => (bodyResult, st5)
  else (bodyResult, { st with queue := st.queue ++ [r], lentOut := st.lentOut - 1 })

/-- `ResourcePooler.use`.  Returns `none` when the call would suspend forever
in a sequential execution (dequeue with nothing buffered and nothing just
created), otherwise `some (outcome, finalState)`. -/
def ResourcePooler.use (fac : ResourceFactory) (task : UseTask) (waitForResize : Bool)
    (st : PoolState) : Option (Outcome Nat × PoolState) :=
  match growIfNeeded fac waitForResize st with
  | (Except.error e, st1) => some (Except.error e, st1)
  | (Except.ok _, st1) =>
    match st1.queue with
    | [] => none
    | r :: rest =>
      let st2 : PoolState := { st1 with queue := rest, lentOut := st1.lentOut + 1 }
      match task with
      | UseTask.stubFn => some (finallyStep fac waitForResize r (Except.ok 0) st2)
      | UseTask.real tk =>
        let st3 : PoolState :=
          if fac.access?.isSome then { st2 with accessCount := st2.accessCount + 1 } else st2
        some (finallyStep fac waitForResize r (bodyOutcome fac tk r) st3)

/-- The convergence loop of `resize`:
`while (newSize !== this.currentSize) { await this.use(this.stubFn, true); }`.
`fuel` bounds the number of loop iterations the model is willing to unfold;
`none` means the loop did not finish within `fuel` iterations (or a `use`
suspended). -/
def resizeLoop (fac : ResourceFactory) (newSize : Nat) :
    Nat → PoolState → Option (Outcome Unit × PoolState)
  | 0, _ => none
  | fuel + 1, st =>
    if newSize = st.currentSize then some (Except.ok (), st)
    else
      match ResourcePooler.use fac UseTask.stubFn true st with
      | none => none
      | some (Except.error e, st1) => some (Except.error e, st1)
      | some (Except.ok _, st1) => resizeLoop fac newSize fuel st1

/-- `ResourcePooler.resize`.  Throws the conflict error when a resize is
already in flight; otherwise sets the guard and `targetSize` and converges.
An error escaping the loop propagates and leaves the guard set (the source
has no `try`/`finally` here). -/
def ResourcePooler.resize (fac : ResourceFactory) (newSize : Nat) (fuel : Nat)
    (st : PoolState) : Option (Outcome Unit × PoolState) :=
  if st.resizing then some (Except.error Err.resizeConflict, st)
  else
    let st1 : PoolState := { st with resizing := true, targetSize := newSize }
    match resizeLoop fac newSize fuel st1 with
    | none => none
    | some (Except.error e, st2) => some (Except.error e, st2)
    | some (Except.ok _, st2) => some (Except.ok (), { st2 with resizing := false })

/-- The state of `new ResourcePooler({ factory })`. -/
def initialPoolState : PoolState :=
  { targetSize := 0, currentSize := 0, queue := [], resizing := false,
    lentOut := 0, createCount := 0, disposeCount := 0, accessCount := 0 }

/-- `createPool(factory, size = 8)`: construct, then resize to `size`. -/
def createPool (fac : ResourceFactory) (fuel : Nat) (size : Nat := 8) :
    Option (Outcome Unit × PoolState) :=
  ResourcePooler.resize fac size fuel initialPoolState

/-- `k` sequential externally-invoked `use(task)` calls (default
`waitForResize`), stopping if one of them suspends or fails. -/
def useSeq (fac : ResourceFactory) (tk : Nat → Outcome Nat) :
    Nat → PoolState → Option PoolState
  | 0, st => some st
  | k + 1, st =>
    match ResourcePooler.use fac (UseTask.real tk) false st with
    | some (Except.ok _, st1) => useSeq fac tk k st1
    | _ => none

/-! ### Pool lemmas -/

theorem growIfNeeded_ok (fac : ResourceFactory) (w : Bool) (st : PoolState)
    (h : st.currentSize < st.targetSize ∧ (st.queue.isEmpty ∨ w = true))
    (hc : fac.createResult st.createCount = Except.ok ()) :
    growIfNeeded fac w st =
      (Except.ok (), { st with currentSize := st.currentSize + 1,
                               createCount := st.createCount + 1,
                               queue := st.queue ++ [st.createCount] }) := by
  unfold growIfNeeded
  rw [if_pos h]
  simp [hc]

theorem growIfNeeded_fail (fac : ResourceFactory) (w : Bool) (st : PoolState) (e : Err)
    (h : st.currentSize < st.targetSize ∧ (st.queue.isEmpty ∨ w = true))
    (hc : fac.createResult st.createCount = Except.error e) :
    growIfNeeded fac w st =
      (Except.error e, { st with currentSize := st.currentSize + 1,
                                 createCount := st.createCount + 1 }) := by
  unfold growIfNeeded
  rw [if_pos h]
  simp [hc]

theorem growIfNeeded_noop (fac : ResourceFactory) (w : Bool) (st : PoolState)
    (h : ¬ st.currentSize < st.targetSize) :
    growIfNeeded fac w st = (Except.ok (), st) := by
  unfold growIfNeeded
  rw [if_neg (fun hc => h hc.1)]

/-- Fields of the state that `growIfNeeded` never changes, plus monotone
facts about the ones it may change. -/
theorem growIfNeeded_preserves (fac : ResourceFactory) (w : Bool) (st : PoolState) :
    (growIfNeeded fac w st).2.targetSize = st.targetSize ∧
    (growIfNeeded fac w st).2.lentOut = st.lentOut ∧
    (growIfNeeded fac w st).2.disposeCount = st.disposeCount ∧
    (growIfNeeded fac w st).2.accessCount = st.accessCount ∧
    (growIfNeeded fac w st).2.resizing = st.resizing := by
  unfold growIfNeeded
  split
  · rcases hc : fac.createResult st.createCount with e | u <;> simp [hc]
  · simp

theorem finallyStep_retire (fac : ResourceFactory) (w : Bool) (r : Nat)
    (b : Outcome Nat) (st : PoolState) (h : st.targetSize < st.currentSize) :
    finallyStep fac w r b st =
      match fac.dispose? with
      | none => (b, { st with currentSize := st.currentSize - 1, lentOut := st.lentOut - 1 })
      | some d =>
        match d r with
        | Except.error e =>
          (if w then Except.error e else b,
            { st with currentSize := st.currentSize - 1, lentOut := st.lentOut - 1,
                      disposeCount := st.disposeCount + 1 })
        | Except.ok _ =>
          (b, { st with currentSize := st.currentSize - 1, lentOut := st.lentOut - 1,
                        disposeCount := st.disposeCount + 1 }) := by
  unfold finallyStep
  rw [if_pos h]

theorem finallyStep_requeue (fac : ResourceFactory) (w : Bool) (r : Nat)
    (b : Outcome Nat) (st : PoolState) (h : ¬ st.targetSize < st.currentSize) :
    finallyStep fac w r b st =
      (b, { st with queue := st.queue ++ [r], lentOut := st.lentOut - 1 }) := by
  unfold finallyStep
  rw [if_neg h]

/-- With `waitForResize = false` the `finally` block never replaces the
body's outcome (an unawaited `dispose` rejection is not observed). -/
theorem finallyStep_fst_nowait (fac : ResourceFactory) (r : Nat)
    (b : Outcome Nat) (st : PoolState) :
    (finallyStep fac false r b st).1 = b := by
  unfold finallyStep
  split
  · rcases fac.dispose? with _ | d
    · rfl
    · rcases hd : d r with e | u <;> simp [hd]
  · rfl

/-- Fields of the state that `finallyStep` never changes. -/
theorem finallyStep_preserves (fac : ResourceFactory) (w : Bool) (r : Nat)
    (b : Outcome Nat) (st : PoolState) :
    (finallyStep fac w r b st).2.targetSize = st.targetSize ∧
    (finallyStep fac w r b st).2.createCount = st.createCount ∧
    (finallyStep fac w r b st).2.accessCount = st.accessCount ∧
    (finallyStep fac w r b st).2.resizing = st.resizing := by
  unfold finallyStep
  split
  · rcases fac.dispose? with _ | d
    · simp
    · rcases hd : d r with e | u <;> simp [hd]
  · simp

/-- Unfolding of `use` for a real task once the growth step succeeded and a
resource is buffered. -/
theorem use_real_eq (fac : ResourceFactory) (tk : Nat → Outcome Nat) (w : Bool)
    (st st1 : PoolState) (r : Nat) (rest : List Nat)
    (hg : growIfNeeded fac w st = (Except.ok (), st1)) (hq : st1.queue = r :: rest) :
    ResourcePooler.use fac (UseTask.real tk) w st =
      some (finallyStep fac w r (bodyOutcome fac tk r)
        (if fac.access?.isSome
          then { st1 with queue := rest, lentOut := st1.lentOut + 1,
                          accessCount := st1.accessCount + 1 }
          else { st1 with queue := rest, lentOut := st1.lentOut + 1 })) := by
  unfold ResourcePooler.use
  rw [hg]
  dsimp only
  rw [hq]

/-- A failing lazy-growth `create` makes `use` fail immediately, whatever the
task. -/
theorem use_fail_eq (fac : ResourceFactory) (task : UseTask) (w : Bool)
    (st st1 : PoolState) (e : Err)
    (hg : growIfNeeded fac w st = (Except.error e, st1)) :
    ResourcePooler.use fac task w st = some (Except.error e, st1) := by
  unfold ResourcePooler.use
  rw [hg]

/-- With nothing buffered after the growth step, `use` suspends. -/
theorem use_suspend (fac : ResourceFactory) (task : UseTask) (w : Bool)
    (st st1 : PoolState)
    (hg : growIfNeeded fac w st = (Except.ok (), st1)) (hq : st1.queue = []) :
    ResourcePooler.use fac task w st = none := by
  unfold ResourcePooler.use
  rw [hg]
  dsimp only
  rw [hq]

/-- Unfolding of `use` for the stub task once the growth step succeeded and a
resource is buffered. -/
theorem use_stub_eq (fac : ResourceFactory) (w : Bool)
    (st st1 : PoolState) (r : Nat) (rest : List Nat)
    (hg : growIfNeeded fac w st = (Except.ok (), st1)) (hq : st1.queue = r :: rest) :
    ResourcePooler.use fac UseTask.stubFn w st =
      some (finallyStep fac w r (Except.ok 0)
        { st1 with queue := rest, lentOut := st1.lentOut + 1 }) := by
  unfold ResourcePooler.use
  rw [hg]
  dsimp only
  rw [hq]

/-- One growth iteration of the resize loop: `use(stubFn, true)` with
`currentSize < targetSize` and a successful `create` grows the pool by one
and returns the borrowed resource to the queue. -/
theorem stub_step_grow (fac : ResourceFactory) (st : PoolState)
    (hlt : st.currentSize < st.targetSize)
    (hc : fac.createResult st.createCount = Except.ok ()) :
    ∃ stm, ResourcePooler.use fac UseTask.stubFn true st = some (Except.ok 0, stm) ∧
      stm.currentSize = st.currentSize + 1 ∧ stm.targetSize = st.targetSize ∧
      stm.resizing = st.resizing ∧ stm.lentOut = st.lentOut ∧
      stm.queue.length = st.queue.length + 1 ∧
      stm.createCount = st.createCount + 1 ∧ stm.disposeCount = st.disposeCount ∧
      stm.accessCount = st.accessCount := by
  have hg := growIfNeeded_ok fac true st ⟨hlt, Or.inr rfl⟩ hc
  rcases hql : st.queue with _ | ⟨a, t⟩
  · have hq : (st.queue ++ [st.createCount] : List Nat) = st.createCount :: [] := by
      rw [hql]; rfl
    have hu := use_stub_eq fac true st _ st.createCount [] hg hq
    rw [finallyStep_requeue] at hu
    · exact ⟨_, hu, by simp, by simp, by simp, by simp, by simp [hql], by simp, by simp, by simp⟩
    · simp
      omega
  · have hq : (st.queue ++ [st.createCount] : List Nat) = a :: (t ++ [st.createCount]) := by
      rw [hql]; rfl
    have hu := use_stub_eq fac true st _ a (t ++ [st.createCount]) hg hq
    rw [finallyStep_requeue] at hu
    · exact ⟨_, hu, by simp, by simp, by simp, by simp, by simp [hql], by simp, by simp, by simp⟩
    · simp
      omega

/-- One shrink iteration, factory without `dispose`: the dequeued resource is
retired silently. -/
theorem stub_step_shrink_nodispose (fac : ResourceFactory) (st : PoolState)
    (r : Nat) (rest : List Nat)
    (hgt : st.targetSize < st.currentSize) (hq : st.queue = r :: rest)
    (hd : fac.dispose? = none) :
    ∃ stm, ResourcePooler.use fac UseTask.stubFn true st = some (Except.ok 0, stm) ∧
      stm.currentSize = st.currentSize - 1 ∧ stm.targetSize = st.targetSize ∧
      stm.resizing = st.resizing ∧ stm.lentOut = st.lentOut ∧
      stm.queue = rest ∧
      stm.createCount = st.createCount ∧ stm.disposeCount = st.disposeCount ∧
      stm.accessCount = st.accessCount := by
  have hg := growIfNeeded_noop fac true st (by omega)
  have hu := use_stub_eq fac true st st r rest hg hq
  rw [finallyStep_retire] at hu
  · rw [hd] at hu
    exact ⟨_, hu, by simp, by simp, by simp, by simp, by simp, by simp, by simp, by simp⟩
  · simpa using hgt

/-- One shrink iteration, `dispose` present and succeeding on the dequeued
resource: the resource is retired and `dispose` is invoked once. -/
theorem stub_step_shrink_dispose_ok (fac : ResourceFactory) (st : PoolState)
    (d : Nat → Outcome Unit) (r : Nat) (rest : List Nat)
    (hgt : st.targetSize < st.currentSize) (hq : st.queue = r :: rest)
    (hd : fac.dispose? = some d) (hr : d r = Except.ok ()) :
    ∃ stm, ResourcePooler.use fac UseTask.stubFn true st = some (Except.ok 0, stm) ∧
      stm.currentSize = st.currentSize - 1 ∧ stm.targetSize = st.targetSize ∧
      stm.resizing = st.resizing ∧ stm.lentOut = st.lentOut ∧
      stm.queue = rest ∧
      stm.createCount = st.createCount ∧ stm.disposeCount = st.disposeCount + 1 ∧
      stm.accessCount = st.accessCount := by
  have hg := growIfNeeded_noop fac true st (by omega)
  have hu := use_stub_eq fac true st st r rest hg hq
  rw [finallyStep_retire] at hu
  · rw [hd] at hu
    dsimp only at hu
    rw [hr] at hu
    exact ⟨_, hu, by simp, by simp, by simp, by simp, by simp, by simp, by simp, by simp⟩
  · simpa using hgt

/-- One shrink iteration where the awaited `dispose` fails: the failure
escapes `use`. -/
theorem stub_step_shrink_dispose_fail (fac : ResourceFactory) (st : PoolState)
    (d : Nat → Outcome Unit) (r : Nat) (rest : List Nat) (e : Err)
    (hgt : st.targetSize < st.currentSize) (hq : st.queue = r :: rest)
    (hd : fac.dispose? = some d) (hr : d r = Except.error e) :
    ∃ stm, ResourcePooler.use fac UseTask.stubFn true st = some (Except.error e, stm) := by
  have hg := growIfNeeded_noop fac true st (by omega)
  have hu := use_stub_eq fac true st st r rest hg hq
  rw [finallyStep_retire] at hu
  · rw [hd] at hu
    dsimp only at hu
    rw [hr] at hu
    exact ⟨_, hu⟩
  · simpa using hgt

/-- Master specification of the resize convergence loop, by induction on the
fuel.  When the loop finishes without error: `currentSize` has converged to
`newSize`; `targetSize`, `resizing`, `lentOut` and `accessCount` are
untouched; the queue/lent-out accounting invariant is preserved; a pure
growth run performs exactly `n - currentSize` creations and no disposal; a
pure shrink run from a quiescent state performs no creation and exactly
`currentSize - n` disposals (when a `dispose` operation exists). -/
theorem resizeLoop_spec (fac : ResourceFactory) :
    ∀ (fuel n : Nat) (st st2 : PoolState),
      st.targetSize = n →
      resizeLoop fac n fuel st = some (Except.ok (), st2) →
      st2.currentSize = n ∧ st2.targetSize = n ∧ st2.resizing = st.resizing ∧
      st2.lentOut = st.lentOut ∧ st2.accessCount = st.accessCount ∧
      (st.queue.length + st.lentOut = st.currentSize →
        st2.queue.length + st2.lentOut = st2.currentSize) ∧
      (st.currentSize ≤ n →
        st2.createCount = st.createCount + (n - st.currentSize) ∧
        st2.disposeCount = st.disposeCount) ∧
      (n ≤ st.currentSize → st.lentOut = 0 → st.queue.length = st.currentSize →
        st2.createCount = st.createCount ∧
        (fac.dispose? = none → st2.disposeCount = st.disposeCount) ∧
        (∀ d, fac.dispose? = some d →
          st2.disposeCount = st.disposeCount + (st.currentSize - n))) := by
  intro fuel
  induction fuel with
  | zero =>
    intro n st st2 ht h
    simp [resizeLoop] at h
  | succ fuel ih =>
    intro n st st2 ht h
    simp only [resizeLoop] at h
    by_cases hn : n = st.currentSize
    · rw [if_pos hn] at h
      simp only [Option.some.injEq, Prod.mk.injEq] at h
      obtain ⟨-, rfl⟩ := h
      exact ⟨hn.symm, ht, rfl, rfl, rfl, fun hI => hI, fun hle => ⟨by omega, rfl⟩,
        fun hge h0 hlen => ⟨rfl, fun _ => by omega, fun d hd => by omega⟩⟩
    · rw [if_neg hn] at h
      rcases Nat.lt_or_ge st.currentSize n with hlt | hge
      · -- growth iteration
        rcases hc : fac.createResult st.createCount with e | u
        · have hu := use_fail_eq fac UseTask.stubFn true st _ e
            (growIfNeeded_fail fac true st e ⟨by omega, Or.inr rfl⟩ hc)
          rw [hu] at h
          simp at h
        · obtain ⟨stm, hu, f1, f2, f3, f4, f5, f6, f7, f8⟩ :=
            stub_step_grow fac st (by omega) hc
          rw [hu] at h
          dsimp only at h
          obtain ⟨g1, g2, g3, g4, g5, g6, g7, g8⟩ := ih n stm st2 (by omega) h
          refine ⟨g1, g2, by rw [g3, f3], by omega, by omega, ?_, ?_, ?_⟩
          · intro hI
            exact g6 (by omega)
          · intro hle
            obtain ⟨c1, c2⟩ := g7 (by omega)
            exact ⟨by omega, by omega⟩
          · intro hge2 _ _
            exact absurd hge2 (by omega)
      · -- shrink iteration
        have hgt : n < st.currentSize := by omega
        rcases hql : st.queue with _ | ⟨r, rest⟩
        · have hu := use_suspend fac UseTask.stubFn true st st
            (growIfNeeded_noop fac true st (by omega)) hql
          rw [hu] at h
          simp at h
        · rcases hd : fac.dispose? with _ | d
          · obtain ⟨stm, hu, f1, f2, f3, f4, f5, f6, f7, f8⟩ :=
              stub_step_shrink_nodispose fac st r rest (by omega) hql hd
            rw [hu] at h
            dsimp only at h
            obtain ⟨g1, g2, g3, g4, g5, g6, g7, g8⟩ := ih n stm st2 (by omega) h
            refine ⟨g1, g2, by rw [g3, f3], by omega, by omega, ?_, ?_, ?_⟩
            · intro hI
              have hrl : stm.queue.length = rest.length := by rw [f5]
              have hcl : (r :: rest : List Nat).length = rest.length + 1 := by simp
              exact g6 (by omega)
            · intro hle
              exact absurd hle (by omega)
            · intro hge2 h0 hlen
              have hcl : (r :: rest : List Nat).length = rest.length + 1 := by simp
              have hrl : stm.queue.length = rest.length := by rw [f5]
              obtain ⟨c1, cnone, csome⟩ := g8 (by omega) (by omega) (by omega)
              refine ⟨by omega, ?_, ?_⟩
              · intro _
                have e1 := cnone hd
                omega
              · intro d' hx
                simp [hd] at hx
          · rcases hr : d r with e | u
            · obtain ⟨stm, hu⟩ :=
                stub_step_shrink_dispose_fail fac st d r rest e (by omega) hql hd hr
              rw [hu] at h
              simp at h
            · obtain ⟨stm, hu, f1, f2, f3, f4, f5, f6, f7, f8⟩ :=
                stub_step_shrink_dispose_ok fac st d r rest (by omega) hql hd hr
              rw [hu] at h
              dsimp only at h
              obtain ⟨g1, g2, g3, g4, g5, g6, g7, g8⟩ := ih n stm st2 (by omega) h
              refine ⟨g1, g2, by rw [g3, f3], by omega, by omega, ?_, ?_, ?_⟩
              · intro hI
                have hrl : stm.queue.length = rest.length := by rw [f5]
                have hcl : (r :: rest : List Nat).length = rest.length + 1 := by simp
                exact g6 (by omega)
              · intro hle
                exact absurd hle (by omega)
              · intro hge2 h0 hlen
                have hcl : (r :: rest : List Nat).length = rest.length + 1 := by simp
                have hrl : stm.queue.length = rest.length := by rw [f5]
                obtain ⟨c1, cnone, csome⟩ := g8 (by omega) (by omega) (by omega)
                refine ⟨by omega, ?_, ?_⟩
                · intro hx
                  simp [hd] at hx
                · intro d' hx
                  have e1 := csome d hd
                  omega

/-- Specification of a `resize` call that completed without error, derived
from `resizeLoop_spec`. -/
theorem resize_ok_spec (fac : ResourceFactory) (n fuel : Nat) (st st2 : PoolState)
    (h : ResourcePooler.resize fac n fuel st = some (Except.ok (), st2)) :
    st2.currentSize = n ∧ st2.targetSize = n ∧ st2.resizing = false ∧
    st2.lentOut = st.lentOut ∧ st2.accessCount = st.accessCount ∧
    (st.queue.length + st.lentOut = st.currentSize →
      st2.queue.length + st2.lentOut = st2.currentSize) ∧
    (st.currentSize ≤ n →
      st2.createCount = st.createCount + (n - st.currentSize) ∧
      st2.disposeCount = st.disposeCount) ∧
    (n ≤ st.currentSize → st.lentOut = 0 → st.queue.length = st.currentSize →
      st2.createCount = st.createCount ∧
      (fac.dispose? = none → st2.disposeCount = st.disposeCount) ∧
      (∀ d, fac.dispose? = some d →
        st2.disposeCount = st.disposeCount + (st.currentSize - n))) := by
  unfold ResourcePooler.resize at h
  by_cases hr : st.resizing = true
  · rw [if_pos hr] at h
    simp at h
  · rw [if_neg hr] at h
    dsimp only at h
    rcases hl : resizeLoop fac n fuel { st with resizing := true, targetSize := n }
      with _ | ⟨o, s⟩
    · rw [hl] at h
      simp at h
    · rw [hl] at h
      cases o with
      | error e => simp at h
      | ok u =>
        dsimp only at h
        simp only [Option.some.injEq, Prod.mk.injEq] at h
        obtain ⟨-, rfl⟩ := h
        obtain ⟨g1, g2, g3, g4, g5, g6, g7, g8⟩ :=
          resizeLoop_spec fac fuel n { st with resizing := true, targetSize := n } s rfl hl
        exact ⟨g1, g2, rfl, g4, g5, g6, g7, g8⟩

/-- C5.  A `resize` invoked while another is still converging fails fast
with the distinguishable conflict error and leaves the entire state — in
particular `targetSize` and `currentSize` — unchanged. -/
theorem resize_conflict_fails_fast (fac : ResourceFactory) (n fuel : Nat) (st : PoolState)
    (h : st.resizing = true) :
    ResourcePooler.resize fac n fuel st = some (Except.error Err.resizeConflict, st) := by
  unfold ResourcePooler.resize
  rw [if_pos h]

/-- C6.  After `resize(n)` completes without an unrecovered factory failure,
`currentSize = n` and the idle-queue length plus the lent-out count equals
`currentSize` (assuming that accounting invariant held at entry). -/
theorem resize_converges (fac : ResourceFactory) (n fuel : Nat) (st st2 : PoolState)
    (hI : st.queue.length + st.lentOut = st.currentSize)
    (h : ResourcePooler.resize fac n fuel st = some (Except.ok (), st2)) :
    st2.currentSize = n ∧ st2.queue.length + st2.lentOut = st2.currentSize := by
  obtain ⟨g1, -, -, -, -, g6, -, -⟩ := resize_ok_spec fac n fuel st st2 h
  exact ⟨g1, g6 hI⟩

/-- C7.  A completed shrink from a quiescent pool of size `a` (no resource
lent out, all `a` buffered) down to `b < a` invokes `dispose` exactly
`a - b` times and leaves exactly `b` resources in the idle queue; every
disposal happens on a resource dequeued from the idle queue, hence not lent
to another caller. -/
theorem shrink_disposes_delta (fac : ResourceFactory) (d : Nat → Outcome Unit)
    (a b fuel : Nat) (st st2 : PoolState)
    (hd : fac.dispose? = some d) (hab : b < a)
    (hcur : st.currentSize = a) (hlen : st.queue.length = a) (hlent : st.lentOut = 0)
    (h : ResourcePooler.resize fac b fuel st = some (Except.ok (), st2)) :
    st2.disposeCount = st.disposeCount + (a - b) ∧ st2.queue.length = b := by
  obtain ⟨g1, -, -, g4, -, g6, -, g8⟩ := resize_ok_spec fac b fuel st st2 h
  obtain ⟨c1, cnone, csome⟩ := g8 (by omega) hlent (by omega)
  have e1 := csome d hd
  have e2 := g6 (by omega)
  exact ⟨by omega, by omega⟩

/-- C8.  A completed growth `resize` from `currentSize = a` up to `b > a`
invokes the factory's `create` operation exactly `b - a` times. -/
theorem grow_creates_delta (fac : ResourceFactory) (a b fuel : Nat) (st st2 : PoolState)
    (hab : a < b) (hcur : st.currentSize = a)
    (h : ResourcePooler.resize fac b fuel st = some (Except.ok (), st2)) :
    st2.createCount = st.createCount + (b - a) := by
  obtain ⟨-, -, -, -, -, -, g7, -⟩ := resize_ok_spec fac b fuel st st2 h
  obtain ⟨c1, -⟩ := g7 (by omega)
  omega

/-- C10.  `createPool(factory)` with the size argument omitted converges to
the default size 8: `currentSize` and `targetSize` are both 8 and `create`
was invoked exactly 8 times. -/
theorem createPool_default_size (fac : ResourceFactory) (fuel : Nat) (st2 : PoolState)
    (h : createPool fac fuel = some (Except.ok (), st2)) :
    st2.currentSize = 8 ∧ st2.targetSize = 8 ∧ st2.createCount = 8 := by
  have h2 : ResourcePooler.resize fac 8 fuel initialPoolState = some (Except.ok (), st2) := h
  obtain ⟨g1, g2, -, -, -, -, g7, -⟩ := resize_ok_spec fac 8 fuel initialPoolState st2 h2
  obtain ⟨c1, -⟩ := g7 (by simp [initialPoolState])
  refine ⟨g1, g2, ?_⟩
  simp [initialPoolState] at c1
  omega

/-- Case analysis of the `finally` block of an externally-invoked `use`
(`waitForResize = false`): the body's outcome is always propagated, and the
borrowed resource is either retired (when `currentSize > targetSize`) or
appended back to the idle queue. -/
theorem finallyStep_false_cases (fac : ResourceFactory) (r : Nat)
    (b : Outcome Nat) (st : PoolState) :
    (finallyStep fac false r b st).1 = b ∧
    ((st.targetSize < st.currentSize ∧
        (finallyStep fac false r b st).2.currentSize = st.currentSize - 1 ∧
        (finallyStep fac false r b st).2.queue = st.queue ∧
        (∀ d, fac.dispose? = some d →
          (finallyStep fac false r b st).2.disposeCount = st.disposeCount + 1) ∧
        (fac.dispose? = none →
          (finallyStep fac false r b st).2.disposeCount = st.disposeCount)) ∨
     (st.currentSize ≤ st.targetSize ∧
        (finallyStep fac false r b st).2.currentSize = st.currentSize ∧
        (finallyStep fac false r b st).2.queue = st.queue ++ [r] ∧
        (finallyStep fac false r b st).2.disposeCount = st.disposeCount)) := by
  refine ⟨finallyStep_fst_nowait fac r b st, ?_⟩
  by_cases hret : st.targetSize < st.currentSize
  · left
    rw [finallyStep_retire fac false r b st hret]
    rcases hd : fac.dispose? with _ | d
    · dsimp only
      exact ⟨hret, rfl, rfl, fun d hx => by simp at hx, fun _ => rfl⟩
    · dsimp only
      rcases hr : d r with e | u <;> dsimp only
      · exact ⟨hret, rfl, rfl, fun d' hx => rfl, fun hx => by simp at hx⟩
      · exact ⟨hret, rfl, rfl, fun d' hx => rfl, fun hx => by simp at hx⟩
  · right
    rw [finallyStep_requeue fac false r b st hret]
    exact ⟨by omega, rfl, rfl, rfl⟩

/-- C1.  For every externally-invoked `use(task)` (so `waitForResize` takes
its default `false`) that borrows a resource `r` — the growth step, if
taken, succeeded and left `r` at the head of the queue — and for every
outcome of the accessor and of the task (both arbitrary, packaged in
`bodyOutcome`): `use` completes with exactly the body's outcome (so an
accessor/task failure is re-raised to the caller after the return/retire
step, and a success value is returned unchanged), and the borrowed resource
has first been either retired (when `currentSize > targetSize` at the
return step: size decremented, `dispose` invoked once when present,
resource not re-enqueued) or appended back onto the idle queue. -/
theorem use_returns_or_retires (fac : ResourceFactory) (tk : Nat → Outcome Nat)
    (st st1 : PoolState) (r : Nat) (rest : List Nat)
    (hg : growIfNeeded fac false st = (Except.ok (), st1))
    (hq : st1.queue = r :: rest) :
    ∃ st2, ResourcePooler.use fac (UseTask.real tk) false st =
        some (bodyOutcome fac tk r, st2) ∧
      ((st1.targetSize < st1.currentSize ∧ st2.currentSize = st1.currentSize - 1 ∧
          st2.queue = rest ∧
          (∀ d, fac.dispose? = some d → st2.disposeCount = st1.disposeCount + 1) ∧
          (fac.dispose? = none → st2.disposeCount = st1.disposeCount)) ∨
       (st1.currentSize ≤ st1.targetSize ∧ st2.currentSize = st1.currentSize ∧
          st2.queue = rest ++ [r] ∧ st2.disposeCount = st1.disposeCount)) := by
  have hu := use_real_eq fac tk false st st1 r rest hg hq
  by_cases ha : fac.access?.isSome = true
  · rw [if_pos ha] at hu
    obtain ⟨p1, pd⟩ := finallyStep_false_cases fac r (bodyOutcome fac tk r)
      { st1 with queue := rest, lentOut := st1.lentOut + 1,
                 accessCount := st1.accessCount + 1 }
    refine ⟨(finallyStep fac false r (bodyOutcome fac tk r)
      { st1 with queue := rest, lentOut := st1.lentOut + 1,
                 accessCount := st1.accessCount + 1 }).2, ?_, ?_⟩
    · rw [hu]
      exact congrArg some (Prod.ext_iff.mpr ⟨p1, rfl⟩)
    · exact pd
  · rw [if_neg ha] at hu
    obtain ⟨p1, pd⟩ := finallyStep_false_cases fac r (bodyOutcome fac tk r)
      { st1 with queue := rest, lentOut := st1.lentOut + 1 }
    refine ⟨(finallyStep fac false r (bodyOutcome fac tk r)
      { st1 with queue := rest, lentOut := st1.lentOut + 1 }).2, ?_, ?_⟩
    · rw [hu]
      exact congrArg some (Prod.ext_iff.mpr ⟨p1, rfl⟩)
    · exact pd

/-- Inversion: an externally-invoked `use` of a real task that returned a
success value must have gone through the body, so with an `access` function
present it bumped the access counter exactly once. -/
theorem use_real_ok_accessCount (fac : ResourceFactory) (tk : Nat → Outcome Nat)
    (st st2 : PoolState) (v : Nat)
    (ha : fac.access?.isSome = true)
    (h : ResourcePooler.use fac (UseTask.real tk) false st = some (Except.ok v, st2)) :
    st2.accessCount = st.accessCount + 1 := by
  obtain ⟨-, -, -, hac, -⟩ := growIfNeeded_preserves fac false st
  rcases hgr : growIfNeeded fac false st with ⟨o, stg⟩
  rw [hgr] at hac
  cases o with
  | error e =>
    rw [use_fail_eq fac (UseTask.real tk) false st stg e hgr] at h
    simp at h
  | ok u =>
    rcases hq : stg.queue with _ | ⟨r, rest⟩
    · rw [use_suspend fac (UseTask.real tk) false st stg hgr hq] at h
      simp at h
    · rw [use_real_eq fac tk false st stg r rest hgr hq, if_pos ha] at h
      rw [Option.some.injEq] at h
      have h2 := congrArg Prod.snd h
      obtain ⟨-, -, hfa, -⟩ := finallyStep_preserves fac false r (bodyOutcome fac tk r)
        { stg with queue := rest, lentOut := stg.lentOut + 1,
                   accessCount := stg.accessCount + 1 }
      rw [h2] at hfa
      rw [hfa]
      simp at hac
      simp [hac]

/-- C9.  With an `access` function supplied, every externally-invoked
`use(task)` call that borrows a resource applies `access` to it exactly once
(the access counter grows by exactly one) and passes its result to the task
(`bodyOutcome` is literally `access` then `task`); consequently `k`
sequential successful `use` calls invoke `access` exactly `k` times. -/
theorem access_once_per_use (fac : ResourceFactory) (acc : Nat → Outcome Nat)
    (ha : fac.access? = some acc) :
    (∀ (st st1 : PoolState) (r : Nat) (rest : List Nat) (tk : Nat → Outcome Nat),
      growIfNeeded fac false st = (Except.ok (), st1) → st1.queue = r :: rest →
      ∃ st2, ResourcePooler.use fac (UseTask.real tk) false st =
          some (bodyOutcome fac tk r, st2) ∧
        st2.accessCount = st1.accessCount + 1 ∧
        bodyOutcome fac tk r = (match acc r with
          | Except.error e => Except.error e
          | Except.ok v => tk v)) ∧
    (∀ (k : Nat) (st st2 : PoolState) (tk : Nat → Outcome Nat),
      useSeq fac tk k st = some st2 → st2.accessCount = st.accessCount + k) := by
  have hsome : fac.access?.isSome = true := by rw [ha]; rfl
  constructor
  · intro st st1 r rest tk hg hq
    have hu := use_real_eq fac tk false st st1 r rest hg hq
    rw [if_pos hsome] at hu
    obtain ⟨p1, -⟩ := finallyStep_false_cases fac r (bodyOutcome fac tk r)
      { st1 with queue := rest, lentOut := st1.lentOut + 1,
                 accessCount := st1.accessCount + 1 }
    obtain ⟨-, -, hfa, -⟩ := finallyStep_preserves fac false r (bodyOutcome fac tk r)
      { st1 with queue := rest, lentOut := st1.lentOut + 1,
                 accessCount := st1.accessCount + 1 }
    refine ⟨(finallyStep fac false r (bodyOutcome fac tk r)
      { st1 with queue := rest, lentOut := st1.lentOut + 1,
                 accessCount := st1.accessCount + 1 }).2, ?_, hfa, ?_⟩
    · rw [hu]
      exact congrArg some (Prod.ext_iff.mpr ⟨p1, rfl⟩)
    · simp [bodyOutcome, accessorOf, ha]
  · intro k
    induction k with
    | zero =>
      intro st st2 tk h
      simp only [useSeq, Option.some.injEq] at h
      rw [← h]
      simp
    | succ k ih =>
      intro st st2 tk h
      simp only [useSeq] at h
      rcases hu : ResourcePooler.use fac (UseTask.real tk) false st with _ | ⟨o, stm⟩
      · rw [hu] at h
        simp at h
      · rw [hu] at h
        cases o with
        | error e => simp at h
        | ok v =>
          dsimp only at h
          have h1 := ih stm st2 tk h
          have h2 := use_real_ok_accessCount fac tk st stm v hsome hu
          omega

/-- C2 (amended).  A failing factory `create` during the lazy-growth step of
`use` propagates as a failure from `use` itself, but `currentSize` *is* left
incremented for the resource that failed to materialize: the source runs
`this.currentSize++` before `await this.factory.create()` and has no
rollback, so after the failed call `currentSize` is one more than before
(the README documents failed resource creation as unsupported). -/
theorem create_failure_leaves_increment (fac : ResourceFactory) (tk : Nat → Outcome Nat)
    (st : PoolState) (e : Err)
    (hlt : st.currentSize < st.targetSize) (hq : st.queue = [])
    (hc : fac.createResult st.createCount = Except.error e) :
    ResourcePooler.use fac (UseTask.real tk) false st =
      some (Except.error e,
        { st with currentSize := st.currentSize + 1,
                  createCount := st.createCount + 1 }) := by
  have hg := growIfNeeded_fail fac false st e ⟨hlt, Or.inl (by simp [hq])⟩ hc
  exact use_fail_eq fac (UseTask.real tk) false st _ e hg

/-! ### Concrete instances for witnesses and counterexamples -/

/-- Factory whose `create` always succeeds, with no `dispose` and no
`access`. -/
def facPlain : ResourceFactory :=
  { createResult := fun _ => Except.ok (), dispose? := none, access? := none }

/-- Factory with always-succeeding `create`, `dispose` and `access`
(`access` maps resource `r` to the view `r + 100`). -/
def facAllOk : ResourceFactory :=
  { createResult := fun _ => Except.ok (),
    dispose? := some (fun _ => Except.ok ()),
    access? := some (fun r => Except.ok (r + 100)) }

/-- Factory whose `create` always throws. -/
def facCreateFails : ResourceFactory :=
  { createResult := fun _ => Except.error (Err.userError 7),
    dispose? := none, access? := none }

/-- Factory whose `access` always throws. -/
def facAccessThrows : ResourceFactory :=
  { createResult := fun _ => Except.ok (),
    dispose? := none,
    access? := some (fun _ => Except.error (Err.userError 3)) }

/-- Pool with unmet demand: `targetSize = 1`, `currentSize = 0`, nothing
buffered. -/
def needySt : PoolState :=
  { targetSize := 1, currentSize := 0, queue := [], resizing := false,
    lentOut := 0, createCount := 0, disposeCount := 0, accessCount := 0 }

/-- C2 (counterexample to the claim as stated).  With a throwing `create`,
`use` on `needySt` fails as claimed, but the final `currentSize` is `1`,
not the pre-call value `0`: the increment is not rolled back. -/
theorem create_failure_increment_cex :
    ResourcePooler.use facCreateFails (UseTask.real (fun v => Except.ok v)) false needySt =
      some (Except.error (Err.userError 7),
        { needySt with currentSize := 1, createCount := 1 }) ∧
    ({ needySt with currentSize := 1, createCount := 1 } : PoolState).currentSize ≠
      needySt.currentSize := by
  exact ⟨rfl, by decide⟩

/-- Witness for `create_failure_leaves_increment` at a concrete input. -/
theorem create_failure_leaves_increment_witness :
    ResourcePooler.use facCreateFails (UseTask.real (fun v => Except.ok v)) false needySt =
      some (Except.error (Err.userError 7),
        { needySt with currentSize := needySt.currentSize + 1,
                       createCount := needySt.createCount + 1 }) :=
  create_failure_leaves_increment facCreateFails (fun v => Except.ok v) needySt
    (Err.userError 7) (by decide) rfl rfl

/-- Pool with three resources live, two idle, over target (`targetSize = 2 <
currentSize = 3`): the next returned resource will be retired. -/
def overTargetSt : PoolState :=
  { targetSize := 2, currentSize := 3, queue := [10, 11], resizing := false,
    lentOut := 0, createCount := 0, disposeCount := 0, accessCount := 0 }

/-- Witness for `use_returns_or_retires`: with a throwing accessor on a pool
over target, the accessor's failure is the outcome `use` propagates, and the
theorem's retire/requeue disjunction holds at this concrete input. -/
theorem use_returns_or_retires_witness :
    bodyOutcome facAccessThrows (fun v => Except.ok v) 10 =
      Except.error (Err.userError 3) ∧
    (∃ st2, ResourcePooler.use facAccessThrows
          (UseTask.real (fun v => Except.ok v)) false overTargetSt =
        some (bodyOutcome facAccessThrows (fun v => Except.ok v) 10, st2) ∧
      ((overTargetSt.targetSize < overTargetSt.currentSize ∧
          st2.currentSize = overTargetSt.currentSize - 1 ∧
          st2.queue = [11] ∧
          (∀ d, facAccessThrows.dispose? = some d →
            st2.disposeCount = overTargetSt.disposeCount + 1) ∧
          (facAccessThrows.dispose? = none →
            st2.disposeCount = overTargetSt.disposeCount)) ∨
       (overTargetSt.currentSize ≤ overTargetSt.targetSize ∧
          st2.currentSize = overTargetSt.currentSize ∧
          st2.queue = [11] ++ [10] ∧
          st2.disposeCount = overTargetSt.disposeCount))) :=
  ⟨rfl, use_returns_or_retires facAccessThrows (fun v => Except.ok v)
    overTargetSt overTargetSt 10 [11] rfl rfl⟩

/-- A pool whose `resizing` guard is set. -/
def busySt : PoolState :=
  { targetSize := 3, currentSize := 2, queue := [0, 1], resizing := true,
    lentOut := 0, createCount := 2, disposeCount := 0, accessCount := 0 }

/-- Witness for `resize_conflict_fails_fast` at a concrete input. -/
theorem resize_conflict_fails_fast_witness :
    ResourcePooler.resize facPlain 5 10 busySt =
      some (Except.error Err.resizeConflict, busySt) :=
  resize_conflict_fails_fast facPlain 5 10 busySt rfl

/-- Quiescent pool of size 4, all four resources idle. -/
def quiescent4St : PoolState :=
  { targetSize := 4, currentSize := 4, queue := [0, 1, 2, 3], resizing := false,
    lentOut := 0, createCount := 4, disposeCount := 0, accessCount := 0 }

/-- State after `resize(6)` on `quiescent4St` with `facPlain`. -/
def grown6St : PoolState :=
  { targetSize := 6, currentSize := 6, queue := [2, 3, 4, 0, 5, 1], resizing := false,
    lentOut := 0, createCount := 6, disposeCount := 0, accessCount := 0 }

/-- Witness for `resize_converges` at a concrete input. -/
theorem resize_converges_witness :
    ResourcePooler.resize facPlain 6 10 quiescent4St = some (Except.ok (), grown6St) ∧
    (grown6St.currentSize = 6 ∧
      grown6St.queue.length + grown6St.lentOut = grown6St.currentSize) :=
  ⟨rfl, resize_converges facPlain 6 10 quiescent4St grown6St rfl rfl⟩

/-- State produced by `createPool` with size 8 (for `facAllOk` as well as
`facPlain`). -/
def poolSt8 : PoolState :=
  { targetSize := 8, currentSize := 8, queue := [4, 2, 5, 1, 6, 3, 7, 0],
    resizing := false, lentOut := 0, createCount := 8, disposeCount := 0,
    accessCount := 0 }

/-- State after `resize(5)` on `poolSt8` with `facAllOk`. -/
def poolSt5 : PoolState :=
  { targetSize := 5, currentSize := 5, queue := [1, 6, 3, 7, 0],
    resizing := false, lentOut := 0, createCount := 8, disposeCount := 3,
    accessCount := 0 }

/-- Witness for `shrink_disposes_delta`: the spec's scenario — a pool created
with size 8 (8 `create` calls), then `resize(5)` invokes `dispose` exactly 3
times and leaves idle-queue length 5. -/
theorem shrink_disposes_delta_witness :
    createPool facAllOk 20 8 = some (Except.ok (), poolSt8) ∧
    ResourcePooler.resize facAllOk 5 20 poolSt8 = some (Except.ok (), poolSt5) ∧
    (poolSt5.disposeCount = poolSt8.disposeCount + (8 - 5) ∧
      poolSt5.queue.length = 5) :=
  ⟨rfl, rfl, shrink_disposes_delta facAllOk (fun _ => Except.ok ()) 8 5 20
    poolSt8 poolSt5 rfl (by decide) rfl rfl rfl rfl⟩

/-- Quiescent pool of size 2 (resources 100 and 101 idle, `createCount`
already 2). -/
def quiescent2St : PoolState :=
  { targetSize := 2, currentSize := 2, queue := [100, 101], resizing := false,
    lentOut := 0, createCount := 2, disposeCount := 0, accessCount := 0 }

/-- State after `resize(7)` on `quiescent2St` with `facPlain`. -/
def grown7St : PoolState :=
  { targetSize := 7, currentSize := 7, queue := [101, 4, 2, 5, 100, 6, 3],
    resizing := false, lentOut := 0, createCount := 7, disposeCount := 0,
    accessCount := 0 }

/-- Witness for `grow_creates_delta` at a concrete input: growing from 2 to 7
calls `create` exactly 5 times. -/
theorem grow_creates_delta_witness :
    ResourcePooler.resize facPlain 7 10 quiescent2St = some (Except.ok (), grown7St) ∧
    grown7St.createCount = quiescent2St.createCount + (7 - 2) :=
  ⟨rfl, grow_creates_delta facPlain 2 7 10 quiescent2St grown7St (by decide) rfl rfl⟩

/-- Quiescent pool of size 1 (resource 0 idle). -/
def single1St : PoolState :=
  { targetSize := 1, currentSize := 1, queue := [0], resizing := false,
    lentOut := 0, createCount := 1, disposeCount := 0, accessCount := 0 }

/-- `single1St` after three sequential `use` calls with `facAllOk`. -/
def single1StAfter : PoolState :=
  { targetSize := 1, currentSize := 1, queue := [0], resizing := false,
    lentOut := 0, createCount := 1, disposeCount := 0, accessCount := 3 }

/-- Witness for `access_once_per_use`: three sequential `use` calls against
a pool with an `access` function invoke `access` exactly three times. -/
theorem access_once_per_use_witness :
    useSeq facAllOk (fun v => Except.ok v) 3 single1St = some single1StAfter ∧
    single1StAfter.accessCount = single1St.accessCount + 3 :=
  ⟨rfl, (access_once_per_use facAllOk (fun r => Except.ok (r + 100)) rfl).2
    3 single1St single1StAfter (fun v => Except.ok v) rfl⟩

/-- Witness for `createPool_default_size` at a concrete factory: with the
size argument omitted, the pool comes up at size 8 after exactly 8 `create`
calls. -/
theorem createPool_default_size_witness :
    createPool facPlain 10 = some (Except.ok (), poolSt8) ∧
    (poolSt8.currentSize = 8 ∧ poolSt8.targetSize = 8 ∧ poolSt8.createCount = 8) :=
  ⟨rfl, createPool_default_size facPlain 10 poolSt8 rfl⟩
